import Mathlib

/-!
Verification of the DecimalTime repository core.

The Python code computes with `decimal.Decimal` inside a 50-digit local
context.  For every operation exercised by the statements below the
50-digit working precision is wide enough that the arithmetic is exact,
so exact decimal values are embedded as rational numbers (`ℚ`).
Python's `Decimal.__floordiv__` truncates toward zero (it is not a
mathematical floor), `int(Decimal)` truncates toward zero, and `//`/`%`
on Python ints are floor division and floor modulus; each is embedded by
the matching operation (`decTrunc`, `Int.fdiv`, `Int.fmod`).
Errors raised by the Python code (`ValueError`, `TypeError`,
`decimal.DivisionByZero`) are embedded as `Except` results with one
constructor per distinct raise site.
-/

/-- Truncation toward zero of a rational, as performed by Python's
`int(Decimal)` and by `Decimal.__floordiv__` (divide-integer). -/
def decTrunc (q : ℚ) : ℤ :=
  if 0 ≤ q then ⌊q⌋ else -⌊-q⌋

/-- Errors raised by the arithmetic layer (`decimal.DivisionByZero` from
`elapsed_seconds // self.ac_len` when `ac_len` is zero). -/
inductive DecErr where
  | divisionByZero
deriving DecidableEq, Repr

/-- Errors raised by `decimal_time/calendar.py` (each constructor is one
`raise` site, distinguished by its message). -/
inductive CalErr where
  | accumulatorRateRequired
  | unknownLeapRule (tag : String)
  | typeErrorNoneRate
  | invalidMonth
  | invalidDay
  | outOfBounds
deriving DecidableEq, Repr

/-- `decimal_time/planet_profile.py`: the `PlanetProfile` dataclass.
`__post_init__` only coerces field types and performs no validation, so
construction is a total function of the fields. -/
structure PlanetProfile where
  planet_name : String
  seconds_per_ac : ℚ
  year_in_acs : ℚ
  epoch_offset_seconds : ℤ
  leap_rule : String
  accumulator_rate : Option ℚ
deriving DecidableEq, Repr

/-- The module-level `EARTH_PROFILE` constant. -/
def EARTH_PROFILE : PlanetProfile :=
  ⟨"Earth", 86400, 365.2422, 0, "gregorian_earth", none⟩

/-- `decimal_time/convert.py`: state set up by `DecimalTimeConverter.__init__`. -/
structure DecimalTimeConverter where
  profile : PlanetProfile
  ac_len : ℚ
  epoch_offset : ℚ
deriving DecidableEq, Repr

/-- `DecimalTimeConverter.__init__`: stores the profile, its day length and
its epoch offset.  No validation happens here. -/
def mkConverter (p : PlanetProfile) : DecimalTimeConverter :=
  ⟨p, p.seconds_per_ac, (p.epoch_offset_seconds : ℚ)⟩

/-- The converter over `EARTH_PROFILE`. -/
def earthConverter : DecimalTimeConverter := mkConverter EARTH_PROFILE

/-- `DecimalTimeConverter.to_elapsed_seconds` on the int / exact-decimal
path: subtract the epoch offset.  (The float input path goes through
`Decimal(str(ts))` and is not embedded; see the development notes.) -/
def to_elapsed_seconds (c : DecimalTimeConverter) (ts : ℚ) : ℚ :=
  ts - c.epoch_offset

/-- `DecimalTimeConverter.elapsed_to_ac_fraction`.  `elapsed // ac_len`
truncates toward zero (`decTrunc`) and raises `DivisionByZero` when
`ac_len` is zero; the two defensive branches then renormalize the
fraction exactly as the Python code does. -/
def elapsed_to_ac_fraction (c : DecimalTimeConverter) (elapsed_seconds : ℚ) :
    Except DecErr (ℤ × ℚ) :=
  if c.ac_len = 0 then .error .divisionByZero
  else
    let ac_count : ℤ := decTrunc (elapsed_seconds / c.ac_len)
    let remainder : ℚ := elapsed_seconds - (ac_count : ℚ) * c.ac_len
    let fraction : ℚ := remainder / c.ac_len
    let p : ℤ × ℚ := if fraction < 0 then (ac_count - 1, fraction + 1) else (ac_count, fraction)
    if 1 ≤ p.2 then .ok (p.1 + 1, (0 : ℚ)) else .ok p

/-- The composite-subunit block of `DecimalTimeConverter.to_decimal_display`:
`total_C = int(frac * 10000)`, then `mc = total_C // 100`,
`rem = total_C % 100`, `kc = rem // 10`, `c = rem % 10`
(Python int `//`/`%` are floor division and floor modulus). -/
def composite_of (frac : ℚ) : ℤ × ℤ × ℤ :=
  let total_C : ℤ := decTrunc (frac * 10000)
  let mc : ℤ := total_C.fdiv 100
  let rem : ℤ := total_C.fmod 100
  let kc : ℤ := rem.fdiv 10
  let c : ℤ := rem.fmod 10
  (mc, kc, c)

/-- `DecimalTimeConverter.to_decimal_display`, restricted to the numeric
fields (`ac_count` and the composite subunits); the formatted strings are
not embedded. -/
def to_decimal_display (c : DecimalTimeConverter) (ts : ℚ) :
    Except DecErr (ℤ × (ℤ × ℤ × ℤ)) :=
  match elapsed_to_ac_fraction c (to_elapsed_seconds c ts) with
  | .error e => .error e
  | .ok (ac_count, frac) => .ok (ac_count, composite_of frac)

/-- Month lengths of the civil (Gregorian) calendar, as used by Python's
`datetime.date` for day-of-year arithmetic. -/
def gregMonthLens (leap : Bool) : List ℕ :=
  [31, if leap then 29 else 28, 31, 30, 31, 30, 31, 31, 30, 31, 30, 31]

/-- Length of civil month `m` (1-based). -/
def gregMonthLen (leap : Bool) (m : ℕ) : ℕ :=
  (gregMonthLens leap).getD (m - 1) 0

/-- Number of days of a civil year. -/
def daysInGYear (leap : Bool) : ℕ :=
  (gregMonthLens leap).sum

/-- The civil leap-year rule applied by `datetime.date`, which is also the
formula of `_is_leap` under the `'gregorian_earth'` rule. -/
def gregLeapB (y : ℤ) : Bool :=
  y % 4 == 0 && (y % 100 != 0 || y % 400 == 0)

/-- A civil (Gregorian) calendar date, the embedding of `datetime.date`. -/
structure GDate where
  year : ℤ
  month : ℕ
  day : ℕ
deriving DecidableEq, Repr

/-- Day-of-year from month lengths: days of the full months before `mo`
plus the day-of-month `dy`. -/
def doyLM (leap : Bool) (mo dy : ℕ) : ℕ :=
  ((gregMonthLens leap).take (mo - 1)).sum + dy

/-- 1-based day of year of a civil date, the embedding of
`(g_date - date(year, 1, 1)).days + 1`. -/
def GDate.doy (d : GDate) : ℕ :=
  doyLM (gregLeapB d.year) d.month d.day

/-- A civil date that `datetime.date` would accept. -/
def GDate.valid (d : GDate) : Prop :=
  1 ≤ d.month ∧ d.month ≤ 12 ∧ 1 ≤ d.day ∧ d.day ≤ gregMonthLen (gregLeapB d.year) d.month

instance (d : GDate) : Decidable d.valid := by
  unfold GDate.valid; infer_instance

/-- The month-walk loop shared by `gregorian_to_dsc` (over DSC month
lengths) and by civil date reconstruction: return the 1-based position of
the month absorbing `doy` together with the day inside it. -/
def findMonthAux : List ℕ → ℕ → ℕ → ℕ → Option (ℕ × ℕ)
  | [], _, _, _ => none
  | len :: rest, idx, acc, doy =>
    if doy ≤ acc + len then some (idx + 1, doy - acc)
    else findMonthAux rest (idx + 1) (acc + len) doy

/-- Walk a month-length list from the start. -/
def findMonth (lengths : List ℕ) (doy : ℕ) : Option (ℕ × ℕ) :=
  findMonthAux lengths 0 0 doy

/-- The civil date of `year` with the given 1-based day-of-year (the
out-of-range fallback is never reached by the callers below). -/
def gDateOfDoy (year : ℤ) (doy : ℕ) : GDate :=
  match findMonth (gregMonthLens (gregLeapB year)) doy with
  | some (m, d) => ⟨year, m, d⟩
  | none => ⟨year, 0, 0⟩

/-- `date(year, 1, 1) + timedelta(days = n)`: civil date arithmetic,
rolling over into later years when `n` reaches past December 31. -/
def addToJan1 (year : ℤ) (n : ℕ) : GDate :=
  if h : n < daysInGYear (gregLeapB year) then gDateOfDoy year (n + 1)
  else addToJan1 (year + 1) (n - daysInGYear (gregLeapB year))
termination_by n
decreasing_by
  cases hb : gregLeapB year <;> simp [daysInGYear, gregMonthLens, hb] at h ⊢ <;> omega

/-- `decimal_time/calendar.py`: `DecimalSolarCalendar.BASE_MONTH_LENGTHS`,
`[36, 37] * 5`. -/
def BASE_MONTH_LENGTHS : List ℕ :=
  [36, 37, 36, 37, 36, 37, 36, 37, 36, 37]

/-- `lengths[-1] += 1`: add one to the last entry of a list. -/
def bumpLast : List ℕ → List ℕ
  | [] => []
  | [x] => [x + 1]
  | x :: y :: rest => x :: bumpLast (y :: rest)

/-- `DecimalSolarCalendar` state: the leap-rule tag and the optional
accumulator rate stored by `__init__`. -/
structure DecimalSolarCalendar where
  leap_rule : String
  accumulator_rate : Option ℚ
deriving DecidableEq, Repr

/-- `DecimalSolarCalendar.__init__`: the only validation is that the
`'accumulator'` rule requires a rate. -/
def mkCalendar (leap_rule : String) (accumulator_rate : Option ℚ) :
    Except CalErr DecimalSolarCalendar :=
  if leap_rule = "accumulator" ∧ accumulator_rate = none then
    .error .accumulatorRateRequired
  else .ok ⟨leap_rule, accumulator_rate⟩

/-- The calendar used with `EARTH_PROFILE`. -/
def earthCal : DecimalSolarCalendar := ⟨"gregorian_earth", none⟩

/-- An accumulator-rule calendar with the given rate. -/
def accCal (rate : ℚ) : DecimalSolarCalendar := ⟨"accumulator", some rate⟩

/-- `DecimalSolarCalendar._is_leap`.  The accumulator branch computes
`floor(Decimal(year - 1) * rate)` and `floor(Decimal(year) * rate)` in a
50-digit context (exact here) and compares their difference with 1; an
unknown rule tag raises only here, not at construction. -/
def is_leap (cal : DecimalSolarCalendar) (year : ℤ) : Except CalErr Bool :=
  if cal.leap_rule = "gregorian_earth" then
    .ok (year % 4 == 0 && (year % 100 != 0 || year % 400 == 0))
  else if cal.leap_rule = "accumulator" then
    match cal.accumulator_rate with
    | some rate =>
      .ok (⌊(year : ℚ) * rate⌋ - ⌊((year - 1 : ℤ) : ℚ) * rate⌋ == 1)
    | none => .error .typeErrorNoneRate
  else if cal.leap_rule = "none" then .ok false
  else .error (.unknownLeapRule cal.leap_rule)

/-- `DecimalSolarCalendar.get_month_lengths`: copy the base sequence and
add one day to month 10 in leap years. -/
def get_month_lengths (cal : DecimalSolarCalendar) (year : ℤ) :
    Except CalErr (List ℕ) :=
  match is_leap cal year with
  | .error e => .error e
  | .ok leap => .ok (if leap then bumpLast BASE_MONTH_LENGTHS else BASE_MONTH_LENGTHS)

/-- `DecimalSolarCalendar.gregorian_to_dsc`: day-of-year of the civil
date, then the month walk over the DSC month lengths. -/
def gregorian_to_dsc (cal : DecimalSolarCalendar) (g_date : GDate) :
    Except CalErr (ℤ × ℕ × ℕ) :=
  match get_month_lengths cal g_date.year with
  | .error e => .error e
  | .ok lengths =>
    match findMonth lengths g_date.doy with
    | some (month_num, day_num) => .ok (g_date.year, month_num, day_num)
    | none => .error .outOfBounds

/-- `DecimalSolarCalendar.dsc_to_gregorian`: validate the month, fetch the
month lengths, validate the day, then add `day_of_year - 1` days to the
civil January 1. -/
def dsc_to_gregorian (cal : DecimalSolarCalendar) (year month day : ℤ) :
    Except CalErr GDate :=
  if ¬ (1 ≤ month ∧ month ≤ 10) then .error .invalidMonth
  else
    match get_month_lengths cal year with
    | .error e => .error e
    | .ok lengths =>
      let month_len : ℕ := lengths.getD (month.toNat - 1) 0
      if ¬ (1 ≤ day ∧ day ≤ (month_len : ℤ)) then .error .invalidDay
      else .ok (addToJan1 year ((lengths.take (month.toNat - 1)).sum + day.toNat - 1))

/-- DSC month lengths as a function of the leap flag. -/
def dscLens (leap : Bool) : List ℕ :=
  if leap then bumpLast BASE_MONTH_LENGTHS else BASE_MONTH_LENGTHS

/-- Bool-valued correctness of one month-walk result: the month index is
in range, the day is in range for that month, and prefix-sum plus day
reconstructs the day-of-year. -/
def splitOK (lengths : List ℕ) (doy : ℕ) : Bool :=
  match findMonth lengths doy with
  | some (m, dd) =>
    decide (1 ≤ m) && decide (m ≤ lengths.length) && decide (1 ≤ dd) &&
    decide (dd ≤ lengths.getD (m - 1) 0) &&
    decide (((lengths.take (m - 1)).sum + dd) = doy)
  | none => false

/-- Bool-valued correctness of civil day-of-year reconstruction at one
month/day pair: the day-of-year is in range for the year and the month
walk over the civil month lengths recovers the pair. -/
def gregDoyOK (leap : Bool) (mo dy : ℕ) : Bool :=
  decide (1 ≤ doyLM leap mo dy) && decide (doyLM leap mo dy ≤ daysInGYear leap) &&
  (findMonth (gregMonthLens leap) (doyLM leap mo dy) == some (mo, dy))

deriving instance DecidableEq for Except

theorem is_leap_earth (y : ℤ) : is_leap earthCal y = .ok (gregLeapB y) := rfl

theorem get_month_lengths_earth (y : ℤ) :
    get_month_lengths earthCal y = .ok (dscLens (gregLeapB y)) := by
  rw [get_month_lengths, is_leap_earth, dscLens]

theorem is_leap_acc (rate : ℚ) (y : ℤ) :
    is_leap (accCal rate) y = .ok (⌊(y : ℚ) * rate⌋ - ⌊((y : ℚ) - 1) * rate⌋ == 1) := by
  have h : is_leap (accCal rate) y =
      .ok (⌊(y : ℚ) * rate⌋ - ⌊((y - 1 : ℤ) : ℚ) * rate⌋ == 1) := rfl
  rw [h]
  norm_num

theorem floor_mul_quarter (z : ℤ) : ⌊(z : ℚ) * (1 / 4)⌋ = z / 4 := by
  rw [mul_one_div, show ((4 : ℚ)) = ((4 : ℕ) : ℚ) by norm_num]
  exact Rat.floor_intCast_div_natCast z 4

/-- C5: for every year, `get_month_lengths` under the `'gregorian_earth'`
rule returns the base sequence `[36,37,...,36,37]` (sum 365) with exactly
one day added to month 10 iff the year satisfies the standard civil
leap-year formula; in particular month 10 has 38 days in 2024 and 37 days
in 2026. -/
theorem c5_month_lengths :
    (∀ y : ℤ, get_month_lengths earthCal y =
      .ok (if y % 4 == 0 && (y % 100 != 0 || y % 400 == 0) then
            [36, 37, 36, 37, 36, 37, 36, 37, 36, 38]
          else [36, 37, 36, 37, 36, 37, 36, 37, 36, 37]))
    ∧ BASE_MONTH_LENGTHS.sum = 365
    ∧ get_month_lengths earthCal 2024 = .ok [36, 37, 36, 37, 36, 37, 36, 37, 36, 38]
    ∧ get_month_lengths earthCal 2026 = .ok [36, 37, 36, 37, 36, 37, 36, 37, 36, 37] := by
  refine ⟨fun y => ?_, by decide, by decide, by decide⟩
  rw [get_month_lengths_earth]
  have hb : (y % 4 == 0 && (y % 100 != 0 || y % 400 == 0)) = gregLeapB y := rfl
  rw [hb]
  cases gregLeapB y <;> rfl

/-- C6: under the accumulator rule, `_is_leap` is the pure function
deciding `floor(y * rate) - floor((y - 1) * rate) == 1` by exact
arithmetic, and with rate 0.25 the leap years among the years `y ≥ 1` are
exactly the multiples of 4. -/
theorem c6_accumulator_rule :
    (∀ (rate : ℚ) (y : ℤ),
      is_leap (accCal rate) y = .ok (⌊(y : ℚ) * rate⌋ - ⌊((y : ℚ) - 1) * rate⌋ == 1))
    ∧ (∀ y : ℤ, 1 ≤ y → is_leap (accCal 0.25) y = .ok (y % 4 == 0)) := by
  refine ⟨is_leap_acc, fun y hy => ?_⟩
  rw [is_leap_acc]
  have hq : (0.25 : ℚ) = 1 / 4 := by norm_num
  rw [hq]
  have h1 : ⌊(y : ℚ) * (1 / 4)⌋ = y / 4 := floor_mul_quarter y
  have h2 : ⌊((y : ℚ) - 1) * (1 / 4)⌋ = (y - 1) / 4 := by
    rw [show ((y : ℚ) - 1) = ((y - 1 : ℤ) : ℚ) by push_cast; ring]
    exact floor_mul_quarter (y - 1)
  rw [h1, h2]
  congr 1
  rw [Bool.eq_iff_iff]
  simp only [beq_iff_eq]
  omega

/-- Witness for C6 at the concrete year 8 with rate 0.25. -/
theorem c6_accumulator_rule_witness :
    (1 : ℤ) ≤ 8 ∧ is_leap (accCal 0.25) 8 = .ok true := by
  refine ⟨by norm_num, ?_⟩
  have h := c6_accumulator_rule.2 8 (by norm_num)
  simpa using h

/-- C8 counterexample: a calendar with the unknown leap-rule tag
`"triadic"` is constructed successfully; the unknown-rule error is raised
only when `_is_leap` is later called. -/
theorem c8_unknown_tag_constructs :
    mkCalendar "triadic" none = .ok ⟨"triadic", none⟩ ∧
    is_leap ⟨"triadic", none⟩ 2024 = .error (.unknownLeapRule "triadic") := by
  constructor <;> rfl

/-- C8 amended: construction fails (missing accumulator rate) exactly
when the rule is `'accumulator'` and no rate is supplied; every other
configuration, including an unknown leap-rule tag, constructs
successfully, and an unknown tag raises its error at the first
`_is_leap` call instead. -/
theorem c8_construction :
    (∀ (rule : String) (rate : Option ℚ),
      mkCalendar rule rate = .error .accumulatorRateRequired ↔
        rule = "accumulator" ∧ rate = none)
    ∧ (∀ (rule : String) (rate : Option ℚ), ¬(rule = "accumulator" ∧ rate = none) →
        mkCalendar rule rate = .ok ⟨rule, rate⟩)
    ∧ (∀ (rule : String) (rate : Option ℚ) (y : ℤ),
        rule ≠ "gregorian_earth" → rule ≠ "accumulator" → rule ≠ "none" →
        is_leap ⟨rule, rate⟩ y = .error (.unknownLeapRule rule)) := by
  refine ⟨fun rule rate => ?_, fun rule rate h => ?_, fun rule rate y h1 h2 h3 => ?_⟩
  · unfold mkCalendar
    split_ifs with h
    · simp [h]
    · simp [h]
  · unfold mkCalendar
    rw [if_neg h]
  · simp [is_leap, h1, h2, h3]

/-- Witness for C8 amended at concrete configurations. -/
theorem c8_construction_witness :
    mkCalendar "accumulator" none = .error .accumulatorRateRequired ∧
    mkCalendar "gregorian_earth" none = .ok ⟨"gregorian_earth", none⟩ ∧
    is_leap ⟨"lunar", none⟩ 1 = .error (.unknownLeapRule "lunar") :=
  ⟨(c8_construction.1 "accumulator" none).mpr ⟨rfl, rfl⟩,
   c8_construction.2.1 "gregorian_earth" none (by simp),
   c8_construction.2.2 "lunar" none 1 (by decide) (by decide) (by decide)⟩

/-- C10: whenever `gregorian_to_dsc` succeeds, the year of the returned
DSC triple is the civil year of the input date. -/
theorem c10_year_preserved (cal : DecimalSolarCalendar) (d : GDate) (y : ℤ) (m dd : ℕ)
    (h : gregorian_to_dsc cal d = .ok (y, m, dd)) : y = d.year := by
  unfold gregorian_to_dsc at h
  split at h
  · simp at h
  · split at h
    · simp only [Except.ok.injEq, Prod.mk.injEq] at h
      exact h.1.symm
    · simp at h

/-- Witness for C10 at the civil date 2026-03-01. -/
theorem c10_year_preserved_witness : (2026 : ℤ) = (⟨2026, 3, 1⟩ : GDate).year :=
  c10_year_preserved earthCal ⟨2026, 3, 1⟩ 2026 2 24 (by decide)

theorem decTrunc_cases (x : ℚ) :
    decTrunc x = ⌊x⌋ ∨ (decTrunc x = ⌊x⌋ + 1 ∧ Int.fract x ≠ 0) := by
  by_cases hcase : 0 ≤ x
  · left
    rw [decTrunc, if_pos hcase]
  · push_neg at hcase
    by_cases hfr0 : Int.fract x = 0
    · left
      have hxe : x = (⌊x⌋ : ℚ) := by
        have hs := Int.self_sub_floor x
        rw [hfr0] at hs
        linarith
      rw [decTrunc, if_neg (not_le.mpr hcase), hxe, ← Int.cast_neg,
        Int.floor_intCast, Int.floor_intCast, neg_neg]
    · right
      refine ⟨?_, hfr0⟩
      rw [decTrunc, if_neg (not_le.mpr hcase)]
      have hc : ⌈-(-x)⌉ = -⌊-x⌋ := Int.ceil_neg
      rw [neg_neg] at hc
      rw [← hc]
      have hlt : (⌊x⌋ : ℚ) < x := by
        rcases lt_or_eq_of_le (Int.floor_le x) with hl | hl
        · exact hl
        · exact absurd (by rw [← Int.self_sub_floor, ← hl, Int.floor_intCast]; ring) hfr0
      have hlo : ⌊x⌋ < ⌈x⌉ := Int.lt_ceil.mpr hlt
      have hhi : ⌈x⌉ ≤ ⌊x⌋ + 1 := by
        apply Int.ceil_le.mpr
        push_cast
        exact (Int.lt_floor_add_one x).le
      omega

theorem elapsed_ok (c : DecimalTimeConverter) (e : ℚ) (h : 0 < c.ac_len) :
    elapsed_to_ac_fraction c e = .ok (⌊e / c.ac_len⌋, Int.fract (e / c.ac_len)) := by
  have hne : c.ac_len ≠ 0 := ne_of_gt h
  have key : ∀ t : ℤ, (e - (t : ℚ) * c.ac_len) / c.ac_len = e / c.ac_len - t := by
    intro t
    rw [sub_div, mul_div_assoc, div_self hne, mul_one]
  unfold elapsed_to_ac_fraction
  rw [if_neg hne]
  simp only [key]
  rcases decTrunc_cases (e / c.ac_len) with hT | ⟨hT, hfr⟩
  · rw [hT, Int.self_sub_floor]
    have h1 : ¬ (Int.fract (e / c.ac_len) < 0) := not_lt.mpr (Int.fract_nonneg _)
    have h2 : ¬ (1 ≤ Int.fract (e / c.ac_len)) := not_le.mpr (Int.fract_lt_one _)
    simp [h1, h2]
  · rw [hT]
    have hx1 : e / c.ac_len - ((⌊e / c.ac_len⌋ + 1 : ℤ) : ℚ) = Int.fract (e / c.ac_len) - 1 := by
      push_cast
      rw [← Int.self_sub_floor]
      ring
    rw [hx1]
    have h1 : Int.fract (e / c.ac_len) - 1 < 0 := by
      have := Int.fract_lt_one (e / c.ac_len)
      linarith
    have h2 : ¬ (1 ≤ Int.fract (e / c.ac_len)) := not_le.mpr (Int.fract_lt_one _)
    simp [h1, h2]

/-- C1: for every converter with positive day length and every elapsed
value, `elapsed_to_ac_fraction` returns the mathematical floor of
`elapsed / seconds_per_day` together with the fraction
`(elapsed - day_index * seconds_per_day) / seconds_per_day`, which always
lies in `[0, 1)`; on the Earth profile, `-86400` gives `(-1, 0)` and
`-129600` gives `(-2, 0.5)`. -/
theorem c1_elapsed_floor (c : DecimalTimeConverter) (e : ℚ) (h : 0 < c.ac_len) :
    (elapsed_to_ac_fraction c e =
      .ok (⌊e / c.ac_len⌋, (e - (⌊e / c.ac_len⌋ : ℚ) * c.ac_len) / c.ac_len)
     ∧ 0 ≤ (e - (⌊e / c.ac_len⌋ : ℚ) * c.ac_len) / c.ac_len
     ∧ (e - (⌊e / c.ac_len⌋ : ℚ) * c.ac_len) / c.ac_len < 1)
    ∧ elapsed_to_ac_fraction earthConverter (-86400) = .ok (-1, 0)
    ∧ elapsed_to_ac_fraction earthConverter (-129600) = .ok (-2, 1 / 2) := by
  have hne : c.ac_len ≠ 0 := ne_of_gt h
  have key : (e - (⌊e / c.ac_len⌋ : ℚ) * c.ac_len) / c.ac_len = Int.fract (e / c.ac_len) := by
    rw [sub_div, mul_div_assoc, div_self hne, mul_one, Int.self_sub_floor]
  have hElen : earthConverter.ac_len = 86400 := rfl
  have hE : (0 : ℚ) < earthConverter.ac_len := by rw [hElen]; norm_num
  refine ⟨?_, ?_, ?_⟩
  · rw [key]
    exact ⟨elapsed_ok c e h, Int.fract_nonneg _, Int.fract_lt_one _⟩
  · rw [elapsed_ok earthConverter (-86400) hE, hElen]
    have hx : (-86400 : ℚ) / 86400 = ((-1 : ℤ) : ℚ) := by norm_num
    rw [hx, Int.floor_intCast, Int.fract_intCast]
  · rw [elapsed_ok earthConverter (-129600) hE, hElen]
    have hx : (-129600 : ℚ) / 86400 = ((-3 : ℤ) : ℚ) / ((2 : ℕ) : ℚ) := by norm_num
    have hfl : ⌊((-3 : ℤ) : ℚ) / ((2 : ℕ) : ℚ)⌋ = -2 := by
      rw [Rat.floor_intCast_div_natCast]
      decide
    have hfr : Int.fract (((-3 : ℤ) : ℚ) / ((2 : ℕ) : ℚ)) = 1 / 2 := by
      rw [Int.fract, hfl]
      norm_num
    rw [hx, hfl, hfr]

/-- Witness for C1 on the Earth converter. -/
theorem c1_elapsed_floor_witness :
    (0 : ℚ) < earthConverter.ac_len ∧
    elapsed_to_ac_fraction earthConverter (-129600) = .ok (-2, 1 / 2) := by
  have hE : (0 : ℚ) < earthConverter.ac_len := by norm_num [earthConverter, mkConverter, EARTH_PROFILE]
  exact ⟨hE, (c1_elapsed_floor earthConverter 0 hE).2.2⟩

theorem composite_eval (q : ℚ) (h0 : 0 ≤ q) :
    composite_of q =
      (⌊q * 10000⌋ / 100, ⌊q * 10000⌋ % 100 / 10, ⌊q * 10000⌋ % 10) := by
  unfold composite_of
  have h4 : (0 : ℚ) ≤ q * 10000 := by positivity
  have ht : decTrunc (q * 10000) = ⌊q * 10000⌋ := by rw [decTrunc, if_pos h4]
  simp only [ht]
  have hTnn : 0 ≤ ⌊q * 10000⌋ := Int.floor_nonneg.mpr h4
  rw [Int.fdiv_eq_ediv _ (by norm_num), Int.fmod_eq_emod _ (by norm_num),
    Int.fdiv_eq_ediv _ (by norm_num), Int.fmod_eq_emod _ (by norm_num),
    Int.emod_emod_of_dvd _ (by norm_num : (10 : ℤ) ∣ 100)]

/-- C3: for every fraction in `[0, 1)` the composite subunits come from
truncation: with `T = floor(fraction * 10000)` (which lies in `0..9999`)
they are `(T div 100, (T mod 100) div 10, T mod 10)`; in particular
`0.12349` gives `(12, 3, 4)`, `0.9999` gives `(99, 9, 9)` and `0.0001`
gives `(0, 0, 1)`. -/
theorem c3_composite_truncation (q : ℚ) (h0 : 0 ≤ q) (h1 : q < 1) :
    (composite_of q =
      (⌊q * 10000⌋ / 100, ⌊q * 10000⌋ % 100 / 10, ⌊q * 10000⌋ % 10)
     ∧ 0 ≤ ⌊q * 10000⌋ ∧ ⌊q * 10000⌋ ≤ 9999)
    ∧ composite_of (12349 / 100000) = (12, 3, 4)
    ∧ composite_of (9999 / 10000) = (99, 9, 9)
    ∧ composite_of (1 / 10000) = (0, 0, 1) := by
  refine ⟨⟨composite_eval q h0, Int.floor_nonneg.mpr (by positivity), ?_⟩, ?_, ?_, ?_⟩
  · have hlt : ⌊q * 10000⌋ < 10000 := by
      apply Int.floor_lt.mpr
      push_cast
      nlinarith
    omega
  · have e1 : (12349 / 100000 : ℚ) * 10000 = ((12349 : ℤ) : ℚ) / ((10 : ℕ) : ℚ) := by norm_num
    rw [composite_eval _ (by norm_num), e1, Rat.floor_intCast_div_natCast]
    decide
  · have e2 : (9999 / 10000 : ℚ) * 10000 = ((9999 : ℤ) : ℚ) / ((1 : ℕ) : ℚ) := by norm_num
    rw [composite_eval _ (by norm_num), e2, Rat.floor_intCast_div_natCast]
    decide
  · have e3 : (1 / 10000 : ℚ) * 10000 = ((1 : ℤ) : ℚ) / ((1 : ℕ) : ℚ) := by norm_num
    rw [composite_eval _ (by norm_num), e3, Rat.floor_intCast_div_natCast]
    decide

/-- Witness for C3 at the fraction 0.12349. -/
theorem c3_composite_truncation_witness :
    (0 : ℚ) ≤ 12349 / 100000 ∧ (12349 / 100000 : ℚ) < 1 ∧
    composite_of (12349 / 100000) = (12, 3, 4) :=
  ⟨by norm_num, by norm_num,
   (c3_composite_truncation (12349 / 100000) (by norm_num) (by norm_num)).2.1⟩

/-- C7 counterexample: profiles with non-positive `seconds_per_ac` are
accepted without any InvalidProfile/InvalidConfig report.  With a
negative day length the conversion simply proceeds and returns a result;
with a zero day length it raises the unrelated arithmetic error
`DivisionByZero`. -/
theorem c7_no_profile_validation :
    elapsed_to_ac_fraction (mkConverter ⟨"NegDay", -86400, 1, 0, "none", none⟩) (-86400) =
      .ok (1, 0)
    ∧ elapsed_to_ac_fraction (mkConverter ⟨"ZeroDay", 0, 1, 0, "none", none⟩) 100 =
      .error .divisionByZero := by
  constructor
  · have hconv : mkConverter ⟨"NegDay", -86400, 1, 0, "none", none⟩ =
        ⟨⟨"NegDay", -86400, 1, 0, "none", none⟩, -86400, 0⟩ := rfl
    rw [hconv, elapsed_to_ac_fraction]
    norm_num [decTrunc]
  · rfl

/-- C7 amended: neither profile nor converter construction validates
`seconds_per_day`; `elapsed_to_ac_fraction` raises `DivisionByZero` when
the day length is zero and otherwise (including negative day lengths)
returns a result. -/
theorem c7_invalid_day_length (p : PlanetProfile) (c : DecimalTimeConverter) (e : ℚ) :
    mkConverter p = ⟨p, p.seconds_per_ac, (p.epoch_offset_seconds : ℚ)⟩
    ∧ (c.ac_len = 0 → elapsed_to_ac_fraction c e = .error .divisionByZero)
    ∧ (c.ac_len ≠ 0 → ∃ r : ℤ × ℚ, elapsed_to_ac_fraction c e = .ok r) := by
  refine ⟨rfl, fun h => ?_, fun h => ?_⟩
  · rw [elapsed_to_ac_fraction, if_pos h]
  · rw [elapsed_to_ac_fraction, if_neg h]
    dsimp only
    split_ifs <;> exact ⟨_, rfl⟩

/-- Witness for C7 amended at a zero-day-length converter. -/
theorem c7_invalid_day_length_witness :
    mkConverter EARTH_PROFILE =
      ⟨EARTH_PROFILE, EARTH_PROFILE.seconds_per_ac, (EARTH_PROFILE.epoch_offset_seconds : ℚ)⟩
    ∧ elapsed_to_ac_fraction ⟨EARTH_PROFILE, 0, 0⟩ 5 = .error .divisionByZero :=
  ⟨(c7_invalid_day_length EARTH_PROFILE ⟨EARTH_PROFILE, 0, 0⟩ 5).1,
   (c7_invalid_day_length EARTH_PROFILE ⟨EARTH_PROFILE, 0, 0⟩ 5).2.1 rfl⟩

theorem daysInGYear_le (L : Bool) : daysInGYear L ≤ 366 := by
  cases L <;> decide

theorem gregMonthLen_le (L : Bool) : ∀ mo < 13, gregMonthLen L mo ≤ 31 := by
  cases L <;> decide

set_option maxRecDepth 40000 in
theorem gregDoyOK_holds (L : Bool) : ∀ mo < 13, ∀ dy < 32, 1 ≤ mo → 1 ≤ dy →
    dy ≤ gregMonthLen L mo → gregDoyOK L mo dy = true := by
  cases L <;> decide

set_option maxRecDepth 40000 in
theorem splitOK_dsc (L : Bool) : ∀ doy < 367, 1 ≤ doy → doy ≤ daysInGYear L →
    splitOK (dscLens L) doy = true := by
  cases L <;> decide

theorem dscLens_length (L : Bool) : (dscLens L).length = 10 := by
  cases L <;> decide

theorem splitOK_elim (lengths : List ℕ) (doy : ℕ) (h : splitOK lengths doy = true) :
    ∃ m dd, findMonth lengths doy = some (m, dd) ∧ 1 ≤ m ∧ m ≤ lengths.length ∧
      1 ≤ dd ∧ dd ≤ lengths.getD (m - 1) 0 ∧ (lengths.take (m - 1)).sum + dd = doy := by
  unfold splitOK at h
  split at h
  · rename_i m dd hf
    simp only [Bool.and_eq_true, decide_eq_true_eq] at h
    exact ⟨m, dd, hf, h.1.1.1.1, h.1.1.1.2, h.1.1.2, h.1.2, h.2⟩
  · simp at h

theorem gregDoyOK_elim (L : Bool) (mo dy : ℕ) (h : gregDoyOK L mo dy = true) :
    1 ≤ doyLM L mo dy ∧ doyLM L mo dy ≤ daysInGYear L ∧
    findMonth (gregMonthLens L) (doyLM L mo dy) = some (mo, dy) := by
  unfold gregDoyOK at h
  simp only [Bool.and_eq_true, decide_eq_true_eq, beq_iff_eq] at h
  exact ⟨h.1.1, h.1.2, h.2⟩

theorem gregorian_to_dsc_earth (d : GDate) (h : d.valid) :
    ∃ m dd : ℕ,
      gregorian_to_dsc earthCal d = .ok (d.year, m, dd) ∧
      1 ≤ m ∧ m ≤ 10 ∧ 1 ≤ dd ∧
      dd ≤ (dscLens (gregLeapB d.year)).getD (m - 1) 0 ∧
      ((dscLens (gregLeapB d.year)).take (m - 1)).sum + dd = d.doy ∧
      1 ≤ d.doy ∧ d.doy ≤ daysInGYear (gregLeapB d.year) ∧
      findMonth (gregMonthLens (gregLeapB d.year)) d.doy = some (d.month, d.day) := by
  obtain ⟨h1, h2, h3, h4⟩ := h
  have hml : gregMonthLen (gregLeapB d.year) d.month ≤ 31 :=
    gregMonthLen_le (gregLeapB d.year) d.month (by omega)
  have hdok := gregDoyOK_elim (gregLeapB d.year) d.month d.day
    (gregDoyOK_holds (gregLeapB d.year) d.month (by omega) d.day (by omega) h1 h3 h4)
  obtain ⟨hdoy1, hdoy2, hfg⟩ := hdok
  have hdeq : d.doy = doyLM (gregLeapB d.year) d.month d.day := rfl
  have hsplit := splitOK_elim (dscLens (gregLeapB d.year)) d.doy
    (splitOK_dsc (gregLeapB d.year) d.doy
      (by have := daysInGYear_le (gregLeapB d.year); omega) hdoy1 hdoy2)
  obtain ⟨m, dd, hfm, hm1, hm2, hdd1, hdd2, hsum⟩ := hsplit
  refine ⟨m, dd, ?_, hm1, ?_, hdd1, hdd2, hsum, hdoy1, hdoy2, hfg⟩
  · unfold gregorian_to_dsc
    rw [get_month_lengths_earth]
    dsimp only
    rw [hfm]
  · have := dscLens_length (gregLeapB d.year)
    omega

theorem addToJan1_eq (year : ℤ) (doy : ℕ) (h1 : 1 ≤ doy)
    (h2 : doy ≤ daysInGYear (gregLeapB year)) :
    addToJan1 year (doy - 1) = gDateOfDoy year doy := by
  rw [addToJan1]
  rw [dif_pos (by omega : doy - 1 < daysInGYear (gregLeapB year))]
  congr 1
  omega

theorem dsc_to_gregorian_ok (cal : DecimalSolarCalendar) (year month day : ℤ)
    (lengths : List ℕ) (hg : get_month_lengths cal year = .ok lengths)
    (hm : 1 ≤ month ∧ month ≤ 10)
    (hd : 1 ≤ day ∧ day ≤ (lengths.getD (month.toNat - 1) 0 : ℤ)) :
    dsc_to_gregorian cal year month day =
      .ok (addToJan1 year ((lengths.take (month.toNat - 1)).sum + day.toNat - 1)) := by
  unfold dsc_to_gregorian
  rw [if_neg (not_not_intro hm), hg]
  dsimp only
  rw [if_neg (not_not_intro hd)]

/-- C2: every valid civil date round-trips: `gregorian_to_dsc` succeeds on
it under the `'gregorian_earth'` calendar, and `dsc_to_gregorian` on the
resulting DSC triple returns the original date. -/
theorem c2_round_trip (d : GDate) (h : d.valid) :
    ∃ m dd : ℕ, gregorian_to_dsc earthCal d = .ok (d.year, m, dd) ∧
      dsc_to_gregorian earthCal d.year (m : ℤ) (dd : ℤ) = .ok d := by
  obtain ⟨m, dd, hfwd, hm1, hm2, hdd1, hdd2, hsum, hdoy1, hdoy2, hfg⟩ :=
    gregorian_to_dsc_earth d h
  refine ⟨m, dd, hfwd, ?_⟩
  have htm : ((m : ℤ)).toNat = m := by omega
  have htd : ((dd : ℤ)).toNat = dd := by omega
  rw [dsc_to_gregorian_ok earthCal d.year (m : ℤ) (dd : ℤ)
    (dscLens (gregLeapB d.year)) (get_month_lengths_earth d.year)
    ⟨by omega, by omega⟩
    ⟨by omega, by rw [htm]; exact_mod_cast hdd2⟩]
  rw [htm, htd, hsum, addToJan1_eq d.year d.doy hdoy1 hdoy2]
  unfold gDateOfDoy
  rw [hfg]

/-- Witness for C2 at the leap-day date 2024-02-29. -/
theorem c2_round_trip_witness :
    (⟨2024, 2, 29⟩ : GDate).valid ∧
    ∃ m dd : ℕ, gregorian_to_dsc earthCal ⟨2024, 2, 29⟩ = .ok (2024, m, dd) ∧
      dsc_to_gregorian earthCal 2024 (m : ℤ) (dd : ℤ) = .ok ⟨2024, 2, 29⟩ :=
  ⟨by decide, c2_round_trip ⟨2024, 2, 29⟩ (by decide)⟩

/-- C9: under a working leap rule, `dsc_to_gregorian` fails with
InvalidMonth exactly when the month is outside `1..10`, fails with
InvalidDay exactly when the month is in range but the day is outside
`1..month_length` for that year's month lengths, and otherwise adds
`(sum of preceding month lengths + day - 1)` days to the civil January 1
of that year. -/
theorem c9_inverse_validation (cal : DecimalSolarCalendar) (year month day : ℤ)
    (L : Bool) (hl : is_leap cal year = .ok L) :
    (dsc_to_gregorian cal year month day = .error .invalidMonth ↔
      ¬(1 ≤ month ∧ month ≤ 10))
    ∧ (dsc_to_gregorian cal year month day = .error .invalidDay ↔
        (1 ≤ month ∧ month ≤ 10) ∧
        ¬(1 ≤ day ∧ day ≤ ((dscLens L).getD (month.toNat - 1) 0 : ℤ)))
    ∧ ((1 ≤ month ∧ month ≤ 10) →
        (1 ≤ day ∧ day ≤ ((dscLens L).getD (month.toNat - 1) 0 : ℤ)) →
        dsc_to_gregorian cal year month day =
          .ok (addToJan1 year (((dscLens L).take (month.toNat - 1)).sum + day.toNat - 1))) := by
  have hg : get_month_lengths cal year = .ok (dscLens L) := by
    rw [get_month_lengths, hl, dscLens]
  by_cases hm : 1 ≤ month ∧ month ≤ 10
  · by_cases hd : 1 ≤ day ∧ day ≤ ((dscLens L).getD (month.toNat - 1) 0 : ℤ)
    · rw [dsc_to_gregorian_ok cal year month day (dscLens L) hg hm hd]
      refine ⟨?_, ?_, fun _ _ => rfl⟩
      · exact ⟨fun hco => absurd hco (by simp), fun hno => absurd hm hno⟩
      · refine ⟨fun hco => absurd hco (by simp), ?_⟩
        rintro ⟨_, hnd⟩
        exact absurd hd hnd
    · have hres : dsc_to_gregorian cal year month day = .error .invalidDay := by
        unfold dsc_to_gregorian
        rw [if_neg (not_not_intro hm), hg]
        dsimp only
        rw [if_pos hd]
      rw [hres]
      refine ⟨?_, ?_, fun _ hd2 => absurd hd2 hd⟩
      · exact ⟨fun hco => absurd hco (by simp), fun hno => absurd hm hno⟩
      · exact ⟨fun _ => ⟨hm, hd⟩, fun _ => rfl⟩
  · have hres : dsc_to_gregorian cal year month day = .error .invalidMonth := by
      unfold dsc_to_gregorian
      rw [if_pos hm]
    rw [hres]
    refine ⟨⟨fun _ => hm, fun _ => rfl⟩, ?_, fun hm2 _ => absurd hm2 hm⟩
    refine ⟨fun hco => absurd hco (by simp), ?_⟩
    rintro ⟨hm2, _⟩
    exact absurd hm2 hm

/-- Witness for C9: month 11 is rejected as InvalidMonth, day 38 of month
10 in the non-leap year 2026 is rejected as InvalidDay, and a valid
triple is accepted. -/
theorem c9_inverse_validation_witness :
    is_leap earthCal 2026 = .ok false ∧
    dsc_to_gregorian earthCal 2026 11 1 = .error .invalidMonth ∧
    dsc_to_gregorian earthCal 2026 10 38 = .error .invalidDay := by
  have hl : is_leap earthCal 2026 = .ok false := by decide
  refine ⟨hl, ?_, ?_⟩
  · exact (c9_inverse_validation earthCal 2026 11 1 false hl).1.mpr (by omega)
  · exact (c9_inverse_validation earthCal 2026 10 38 false hl).2.1.mpr
      ⟨by omega, by decide⟩
